import Mathlib

/-!
Verification of the sample-identity reconciliation and cross-table merge
engine of the CPTAC Endometrial package.

The embedding follows the Python source:
  - src/CPTAC/Endometrial/dunder-init: create_patient_ids, link_patient_ids,
    the module-level loading pipeline (casesToDrop / filtered variants),
    the getters, and the three public merge operations with their
    name-string allow-lists.
  - src/CPTAC/Endometrial/datatest.py: the tumor/normal status rule
    (sample key at or below S104) and the scalar mutation-resolution
    computation (stable sort by sample ascending then hierarchy
    descending, take the first row).
The bodies of the Utilities class (utilities.py) are not part of the
source tree; definitions marked `Modelled from the spec:` reconstruct
them from the specification document and nothing else.
-/

/-- A dataframe cell: a string, an integer measurement, a list-valued cell
(used by the mutation annotation), or a missing value. -/
inductive Cell where
  | str (s : String)
  | num (n : Int)
  | strList (l : List String)
  | nan
deriving DecidableEq

/-- A two-dimensional table: a diagnostic name, column labels, and rows,
each row a key (the index label) with its cells aligned to the columns. -/
structure Table where
  name : String
  cols : List String
  rows : List (String × List Cell)
deriving DecidableEq

/-- The row keys (index labels) of a table, in order. -/
def Table.keys (t : Table) : List String := t.rows.map Prod.fst

/-- A table is well formed when every row has one cell per column. -/
def WellFormed (t : Table) : Prop := ∀ r ∈ t.rows, r.2.length = t.cols.length

instance (t : Table) : Decidable (WellFormed t) := by
  unfold WellFormed
  exact List.decidableBAll _ t.rows

/-- Positional lookup of the cell of column `x` in a row whose cells are
aligned with the column labels, taking the first matching label. -/
def getCellByCol : List String → List Cell → String → Option Cell
  | [], _, _ => none
  | _ :: _, [], _ => none
  | c :: cs, v :: vs, x => if c = x then some v else getCellByCol cs vs x

/-- Index of the first occurrence of a column label, if present. -/
def colIdxO : List String → String → Option Nat
  | [], _ => none
  | c :: cs, x => if c = x then some 0 else (colIdxO cs x).map (· + 1)

/-- The cell of table `t` at row key `k` (first row carrying that key, as
in a pandas loc lookup on a unique index) and column `c`. -/
def Table.cellAt (t : Table) (k c : String) : Option Cell :=
  match t.rows.find? (fun r => r.1 == k) with
  | some r => getCellByCol t.cols r.2 c
  | none => none

/-- Code-point comparison of characters, as Python compares strings. -/
def charListLe : List Char → List Char → Bool
  | [], _ => true
  | _ :: _, [] => false
  | x :: xs, y :: ys =>
    if x.toNat < y.toNat then true
    else if y.toNat < x.toNat then false
    else charListLe xs ys

/-- Strict code-point comparison of character lists. -/
def charListLt : List Char → List Char → Bool
  | [], [] => false
  | [], _ :: _ => true
  | _ :: _, [] => false
  | x :: xs, y :: ys =>
    if x.toNat < y.toNat then true
    else if y.toNat < x.toNat then false
    else charListLt xs ys

/-- Python's lexicographic string comparison, at-most. -/
def strLeB (a b : String) : Bool := charListLe a.data b.data

/-- Python's lexicographic string comparison, strictly-below. -/
def strLtB (a b : String) : Bool := charListLt a.data b.data

/-- Lookup in a Python dict built by inserting the pairs of the list in
order: a later binding of the same key overwrites an earlier one. -/
def dictLookup (d : List (String × String)) (k : String) : Option String :=
  match d with
  | [] => none
  | p :: rest =>
    match dictLookup rest k with
    | some v => some v
    | none => if p.1 = k then some p.2 else none

/-- The string held by an optional cell, defaulting to the empty string. -/
def cellStr : Option Cell → String
  | some (Cell.str s) => s
  | _ => ""

/-- Embeds the tumor/normal status rule of datatest.py (the checks at
lines 497 and 587): a sample key has Tumor status exactly when it
compares lexicographically at or below S104, and Normal status
otherwise. -/
def sample_status (s : String) : String :=
  if strLeB s "S104" then "Tumor" else "Normal"

/-- Embeds create_patient_ids of the Endometrial package: from the first
103 rows of the clinical table, build the dict mapping each row's
Patient_ID value to the row's index label, a later row overwriting an
earlier one on a duplicate Patient_ID. -/
def create_patient_ids (clinical : Table) : List (String × String) :=
  (clinical.rows.take 103).map
    (fun r => (cellStr (getCellByCol clinical.cols r.2 "Patient_ID"), r.1))

/-- The sample id assigned to one ledger identifier: the dict value when
the identifier is a key of the patient map, the NA sentinel otherwise. -/
def lookupSampleId (pids : List (String × String)) (x : String) : String :=
  match dictLookup pids x with
  | some v => v
  | none => "NA"

/-- The Patient_Id cell of a ledger row, as a string. -/
def patientIdOf (t : Table) (r : String × List Cell) : String :=
  cellStr (getCellByCol t.cols r.2 "Patient_Id")

/-- The list of sample ids computed by the loop of link_patient_ids, one
per ledger row in order. -/
def linkSampleIds (pids : List (String × String)) (somatic : Table) : List Cell :=
  somatic.rows.map (fun r => Cell.str (lookupSampleId pids (patientIdOf somatic r)))

/-- Pandas column assignment on a table: overwrite the column in place
when the label exists, otherwise append it as a new last column; the
values list pairs up with the rows in order. -/
def assignColumn (t : Table) (c : String) (vs : List Cell) : Table :=
  match colIdxO t.cols c with
  | some i =>
    { name := t.name, cols := t.cols
      rows := List.zipWith (fun r v => (r.1, r.2.set i v)) t.rows vs }
  | none =>
    { name := t.name, cols := t.cols ++ [c]
      rows := List.zipWith (fun r v => (r.1, r.2 ++ [v])) t.rows vs }

/-- The value of the somatic table after link_patient_ids has run its
loop and assigned the Sample_ID column. -/
def linkPatientIdsPure (pids : List (String × String)) (somatic : Table) : Table :=
  assignColumn somatic "Sample_ID" (linkSampleIds pids somatic)

/-- Outcome of calling a Python function: an exception, or a returned
value, where returning nothing is the bare return of the source. -/
inductive PyOutcome (α : Type) where
  | raised (exc : String)
  | returned (v : Option α)
deriving DecidableEq

/-- Embeds the call semantics of link_patient_ids: the first component is
the Python return value and the second the post-call state of the
caller's somatic table. The function reads the Patient_Id column (a
KeyError when absent), assigns the Sample_ID column in place on its
argument, and returns that same object, so the returned table and the
post-call state of the input coincide. -/
def link_patient_ids (pids : List (String × String)) (somatic : Table) :
    PyOutcome Table × Table :=
  if "Patient_Id" ∈ somatic.cols then
    let t := linkPatientIdsPure pids somatic
    (PyOutcome.returned (some t), t)
  else
    (PyOutcome.raised "KeyError", somatic)

/-- The omics allow-list shared by the three public merge operations of
the Endometrial package (circular_RNA and miRNA are deliberately
absent). -/
def valid_omics_dfs : List String :=
  ["acetylproteomics", "proteomics", "transcriptomics", "CNA",
   "phosphoproteomics", "phosphoproteomics_gene"]

/-- The metadata allow-list of append_metadata_to_omics. -/
def valid_metadata_dfs : List String :=
  ["clinical", "derived_molecular", "experimental_setup"]

/-- Column selection: a table restricted to the listed columns, the whole
table when no list is given. -/
def selectCols (t : Table) (cs : Option (List String)) : Table :=
  match cs with
  | none => t
  | some cl =>
    { name := t.name, cols := cl
      rows := t.rows.map
        (fun r => (r.1, cl.map (fun c => (getCellByCol t.cols r.2 c).getD Cell.nan))) }

/-- Row keys present in both tables, in the order of the first. -/
def innerJoinKeys (a b : List String) : List String :=
  a.filter (fun k => decide (k ∈ b))

/-- Modelled from the spec: Utilities.compare_omics (utilities.py is not
under src/). Selects the requested columns of each table (all when
unspecified), keeps the rows whose key appears in both selections
(inner join), concatenates the columns side by side, and disambiguates
colliding column labels with the source table's name. -/
def utilCompareOmics (df1 df2 : Table) (cols1 cols2 : Option (List String)) : Table :=
  let a := selectCols df1 cols1
  let b := selectCols df2 cols2
  let ks := innerJoinKeys a.keys b.keys
  let acols := a.cols.map (fun c => if c ∈ b.cols then c ++ "_" ++ df1.name else c)
  let bcols := b.cols.map (fun c => if c ∈ a.cols then c ++ "_" ++ df2.name else c)
  { name := df1.name ++ "_" ++ df2.name
    cols := acols ++ bcols
    rows := ks.map (fun k =>
      (k, a.cols.map (fun c => (a.cellAt k c).getD Cell.nan)
          ++ b.cols.map (fun c => (b.cellAt k c).getD Cell.nan))) }

/-- Modelled from the spec: Utilities.append_metadata_to_omics is not
under src/; the spec gives it the same inner-join contract as the
compare operation, asymmetric only in argument naming. -/
def utilAppendMetadataToOmics (metadata_df omics_df : Table)
    (metadata_cols omics_cols : Option (List String)) : Table :=
  utilCompareOmics metadata_df omics_df metadata_cols omics_cols

/-- A mutation ledger row: sample key, gene, mutation type, location. -/
structure MutationRec where
  sample : String
  gene : String
  mutation : String
  location : String
deriving DecidableEq

/-- All ledger records for one (sample, gene) pair, in ledger order. -/
def recordsFor (ledger : List MutationRec) (s g : String) : List MutationRec :=
  ledger.filter (fun r => decide (r.sample = s ∧ r.gene = g))

/-- The wildtype value imputed for a sample with no record of a mutation
in the queried gene, qualified by the sample's tumor/normal status. -/
def wildtypeFor (s : String) : String :=
  if sample_status s = "Tumor" then "Wildtype_Tumor" else "Wildtype_Normal"

/-- Modelled from the spec: the cell of the per-gene mutation column in
Utilities.append_mutations_to_omics (not under src/) — the distinct
mutation types of the records found, or the single-element wildtype
list chosen by the sample's status when no record exists. -/
def mutationCellFor (ledger : List MutationRec) (s g : String) : List String :=
  let recs := recordsFor ledger s g
  if recs.isEmpty then [wildtypeFor s]
  else (recs.map MutationRec.mutation).dedup

/-- Modelled from the spec: the parallel per-gene location column — the
locations of the records found, empty when no record exists. -/
def locationCellFor (ledger : List MutationRec) (s g : String) : List String :=
  (recordsFor ledger s g).map MutationRec.location

/-- Modelled from the spec: Utilities.append_mutations_to_omics is not
under src/. Joins the mutation ledger onto the (optionally
column-subset) omics table: every omics row receives, for each queried
gene, a list-valued mutation cell (and a location cell when requested)
computed by the imputation policy above. -/
def utilAppendMutationsToOmics (ledger : List MutationRec) (omics : Table)
    (genes : List String) (omicsGenes : Option (List String)) (showLoc : Bool) : Table :=
  let base := selectCols omics omicsGenes
  let mutCols := genes.map (fun g => g ++ "_Mutation")
  let locCols := if showLoc then genes.map (fun g => g ++ "_Location") else []
  { name := omics.name ++ "_with_mutations"
    cols := base.cols ++ mutCols ++ locCols
    rows := base.rows.map (fun r =>
      (r.1,
       r.2 ++ genes.map (fun g => Cell.strList (mutationCellFor ledger r.1 g))
           ++ (if showLoc then
                 genes.map (fun g => Cell.strList (locationCellFor ledger r.1 g))
               else []))) }

/-- Embeds the public compare_omics of the Endometrial package: both
arguments must carry a name of the omics allow-list, otherwise the
function prints a diagnostic and returns without a value; on success it
delegates to the Utilities merge. -/
def compare_omics (df1 df2 : Table) (cols1 cols2 : Option (List String)) :
    PyOutcome Table :=
  if df1.name ∈ valid_omics_dfs ∧ df2.name ∈ valid_omics_dfs then
    PyOutcome.returned (some (utilCompareOmics df1 df2 cols1 cols2))
  else
    PyOutcome.returned none

/-- Embeds the public append_metadata_to_omics: the metadata argument
must carry a metadata name and the omics argument an omics name,
otherwise the function prints a diagnostic and returns without a
value. -/
def append_metadata_to_omics (metadata_df omics_df : Table)
    (metadata_cols omics_cols : Option (List String)) : PyOutcome Table :=
  if metadata_df.name ∈ valid_metadata_dfs then
    if omics_df.name ∈ valid_omics_dfs then
      PyOutcome.returned
        (some (utilAppendMetadataToOmics metadata_df omics_df metadata_cols omics_cols))
    else PyOutcome.returned none
  else PyOutcome.returned none

/-- Embeds the public append_mutations_to_omics: the omics argument must
carry a name of the omics allow-list, otherwise the function prints a
diagnostic and returns without a value; on success it delegates to the
Utilities merge against the module-level somatic mutation ledger,
passed here as an explicit argument. -/
def append_mutations_to_omics (ledger : List MutationRec) (omics_df : Table)
    (mutation_genes : List String) (omics_genes : Option (List String))
    (show_location : Bool) : PyOutcome Table :=
  if omics_df.name ∈ valid_omics_dfs then
    PyOutcome.returned
      (some (utilAppendMutationsToOmics ledger omics_df mutation_genes
               omics_genes show_location))
  else PyOutcome.returned none

/-- Modelled from the spec: Utilities.add_mutation_hierarchy is not under
src/; the fixed MutationHierarchy severity order of the spec
(truncating and frameshift above missense, missense above silent,
silent above wildtype) is used. The tie-break claims below hold for
any hierarchy function, since their records carry equal mutation
types. -/
def mutation_hierarchy (m : String) : Nat :=
  if m = "Frame_Shift_Del" ∨ m = "Frame_Shift_Ins" ∨ m = "Nonsense_Mutation" then 3
  else if m = "Missense_Mutation" then 2
  else if m = "Silent" then 1
  else 0

/-- The strict two-key order of the scalar-resolution sort of datatest.py
(line 507): sample key ascending first, mutation hierarchy descending
second. -/
def recBefore (x y : MutationRec) : Bool :=
  strLtB x.sample y.sample ||
    (x.sample == y.sample &&
      decide (mutation_hierarchy y.mutation < mutation_hierarchy x.mutation))

/-- Stable insertion into a list sorted by recBefore: the inserted record
goes after every record strictly before it and before the rest, so two
tied records keep their original relative order. -/
def insertRec (x : MutationRec) : List MutationRec → List MutationRec
  | [] => [x]
  | y :: ys => if recBefore y x then y :: insertRec x ys else x :: y :: ys

/-- Stable sort by recBefore, matching the stable multi-column lexsort
pandas performs for sort_values with two by-columns. -/
def sortRecs : List MutationRec → List MutationRec
  | [] => []
  | x :: xs => insertRec x (sortRecs xs)

/-- Embeds the scalar mutation resolution of datatest.py (lines 505 to
508): attach the hierarchy, sort by sample ascending then hierarchy
descending, and take the first row. -/
def resolve_scalar (records : List MutationRec) : Option MutationRec :=
  (sortRecs records).head?

/-- Choice between the earliest record of a prefix and the best record of
the rest: the later best wins only when it sorts strictly before. -/
def pickEarlier (x : MutationRec) : Option MutationRec → Option MutationRec
  | none => some x
  | some m => if recBefore m x then some m else some x

/-- The first record of the sequence among those attaining the least
two-key sort position: the earliest record no later record sorts
strictly before. -/
def firstTopSeverity : List MutationRec → Option MutationRec
  | [] => none
  | x :: xs => pickEarlier x (firstTopSeverity xs)

/-- Embeds the casesToDrop computation of the loading pipeline: the index
labels of the clinical rows whose Case_excluded value is Yes. -/
def casesToDrop (clinical_file_data : Table) : List String :=
  (clinical_file_data.rows.filter
    (fun r => decide
      (getCellByCol clinical_file_data.cols r.2 "Case_excluded" = some (Cell.str "Yes")))).map
    Prod.fst

/-- Pandas row drop with labels ignored when absent: keep every row whose
key is not in the drop list. -/
def dropCases (t : Table) (toDrop : List String) : Table :=
  { name := t.name, cols := t.cols
    rows := t.rows.filter (fun r => !decide (r.1 ∈ toDrop)) }

/-- Embeds the getter pattern of the Endometrial package (get_clinical,
get_acetylproteomics, and the rest): with unfiltered set, the table as
loaded is returned unchanged; otherwise the variant with the excluded
cases dropped. -/
def get_loaded_table (t_u : Table) (toDrop : List String) (unfiltered : Bool) : Table :=
  if unfiltered then t_u else dropCases t_u toDrop

theorem String.append_right_cancel' {a b s : String} (h : a ++ s = b ++ s) : a = b := by
  have hd := congrArg String.data h
  simp [String.data_append] at hd
  exact String.ext hd

theorem gcb_append_of_not_mem {c : String} :
    ∀ (cols1 : List String) (cells1 : List Cell) (cols2 : List String)
      (cells2 : List Cell), c ∉ cols1 → cells1.length = cols1.length →
      getCellByCol (cols1 ++ cols2) (cells1 ++ cells2) c = getCellByCol cols2 cells2 c
  | [], [], _, _, _, _ => rfl
  | [], _ :: _, _, _, _, hlen => by simp at hlen
  | _ :: _, [], _, _, _, hlen => by simp at hlen
  | c1 :: cs, v :: vs, cols2, cells2, hmem, hlen => by
    simp only [List.cons_append, getCellByCol]
    rw [if_neg (by intro h; exact hmem (h ▸ List.mem_cons_self c1 cs))]
    exact gcb_append_of_not_mem cs vs cols2 cells2 (fun h => hmem (List.mem_cons_of_mem _ h))
      (by simpa using hlen)

theorem gcb_append_of_mem {c : String} :
    ∀ (cols1 : List String) (cells1 : List Cell) (cols2 : List String)
      (cells2 : List Cell), c ∈ cols1 → cells1.length = cols1.length →
      getCellByCol (cols1 ++ cols2) (cells1 ++ cells2) c = getCellByCol cols1 cells1 c
  | [], _, _, _, hmem, _ => by simp at hmem
  | _ :: _, [], _, _, _, hlen => by simp at hlen
  | c1 :: cs, v :: vs, cols2, cells2, hmem, hlen => by
    simp only [List.cons_append, getCellByCol]
    by_cases hc : c1 = c
    · rw [if_pos hc, if_pos hc]
    · rw [if_neg hc, if_neg hc]
      have : c ∈ cs := by
        rcases List.mem_cons.mp hmem with h | h
        · exact absurd h.symm hc
        · exact h
      exact gcb_append_of_mem cs vs cols2 cells2 this (by simpa using hlen)

theorem gcb_map_append {f : String → String} {vals : String → Cell}
    (hf : ∀ a b, f a = f b → a = b) :
    ∀ (genes : List String) (extraC : List String) (extraD : List Cell) (g : String),
      g ∈ genes →
      getCellByCol (genes.map f ++ extraC) (genes.map vals ++ extraD) (f g) =
        some (vals g)
  | [], _, _, _, hg => by simp at hg
  | h :: tl, extraC, extraD, g, hg => by
    simp only [List.map_cons, List.cons_append, getCellByCol]
    by_cases hfh : f h = f g
    · rw [if_pos hfh, hf h g hfh]
    · rw [if_neg hfh]
      have : g ∈ tl := by
        rcases List.mem_cons.mp hg with h' | h'
        · exact absurd (congrArg f h'.symm) hfh
        · exact h'
      exact gcb_map_append hf tl extraC extraD g this

theorem find?_map_key (rows : List (String × List Cell))
    (f : String × List Cell → List Cell) (s : String) :
    (rows.map (fun r => (r.1, f r))).find? (fun r => r.1 == s) =
      (rows.find? (fun r => r.1 == s)).map (fun r => (r.1, f r)) := by
  induction rows with
  | nil => rfl
  | cons r rest ih =>
    simp only [List.map_cons, List.find?]
    by_cases h : r.1 == s
    · rw [h]; rfl
    · simp only [Bool.not_eq_true] at h
      rw [h]
      exact ih

theorem zipWith_append_map (rows : List (String × List Cell))
    (g : String × List Cell → Cell) :
    List.zipWith (fun (r : String × List Cell) (v : Cell) => (r.1, r.2 ++ [v]))
        rows (rows.map g) =
      rows.map (fun r => (r.1, r.2 ++ [g r])) := by
  rw [List.zipWith_map_right]
  exact List.zipWith_same _ _

theorem mem_of_getElem?_rows {l : List (String × List Cell)} {i : Nat}
    {a : String × List Cell} (h : l[i]? = some a) : a ∈ l := by
  obtain ⟨hi, he⟩ := List.getElem?_eq_some.mp h
  exact he ▸ List.getElem_mem hi

theorem colIdxO_eq_none_of_not_mem {c : String} :
    ∀ (cols : List String), c ∉ cols → colIdxO cols c = none
  | [], _ => rfl
  | c1 :: cs, hmem => by
    simp only [colIdxO]
    rw [if_neg (by intro h; exact hmem (h ▸ List.mem_cons_self c1 cs)),
      colIdxO_eq_none_of_not_mem cs (fun h => hmem (List.mem_cons_of_mem _ h))]
    rfl

theorem gcb_singleton (c : String) (v : Cell) : getCellByCol [c] [v] c = some v := by
  simp [getCellByCol]

theorem linkPure_spec (pids : List (String × String)) (t : Table)
    (hs : "Sample_ID" ∉ t.cols) :
    linkPatientIdsPure pids t =
      { name := t.name, cols := t.cols ++ ["Sample_ID"]
        rows := t.rows.map (fun r =>
          (r.1, r.2 ++ [Cell.str (lookupSampleId pids (patientIdOf t r))])) } := by
  unfold linkPatientIdsPure assignColumn
  rw [colIdxO_eq_none_of_not_mem t.cols hs]
  simp only [linkSampleIds]
  rw [zipWith_append_map]

/-- A one-entry patient map fixture: the first clinical patient. -/
def pidsFix : List (String × String) := [("C3L-00006", "S001")]

/-- A one-row mutation ledger fixture whose patient is in the map. -/
def ledgerFix : Table :=
  { name := "somatic MAF", cols := ["Patient_Id", "Gene"]
    rows := [("0", [Cell.str "C3L-00006", Cell.str "TP53"])] }

/-- A one-row mutation ledger fixture whose patient is not in the map. -/
def ledgerUnmapped : Table :=
  { name := "somatic MAF", cols := ["Patient_Id", "Gene"]
    rows := [("0", [Cell.str "C3L-99999", Cell.str "TP53"])] }

/-- C3, counterexample: link_patient_ids does mutate its input table — at
a concrete one-row ledger the post-call state of the input differs
from its pre-call state, and the returned table is exactly that
mutated input state, not a fresh distinct table. -/
theorem link_mutates_input :
    (link_patient_ids pidsFix ledgerFix).2 ≠ ledgerFix ∧
    (link_patient_ids pidsFix ledgerFix).1 =
      PyOutcome.returned (some (link_patient_ids pidsFix ledgerFix).2) := by
  decide

/-- C3, amended: the identifier-linking operation mutates its input
ledger in place and returns that same table; the in-place change is
exactly one appended Sample_ID column — the row keys, all pre-existing
column labels, and every pre-existing cell value are unchanged. -/
theorem link_inplace_append_only (pids : List (String × String)) (t : Table)
    (hp : "Patient_Id" ∈ t.cols) (hs : "Sample_ID" ∉ t.cols) (hwf : WellFormed t) :
    ∃ t', link_patient_ids pids t = (PyOutcome.returned (some t'), t') ∧
      t'.cols = t.cols ++ ["Sample_ID"] ∧
      t'.keys = t.keys ∧
      (∀ (i : Nat) (r : String × List Cell), t.rows[i]? = some r →
        ∃ v, t'.rows[i]? = some (r.1, r.2 ++ [v])) ∧
      (∀ (i : Nat) (r r' : String × List Cell) (c : String),
        t.rows[i]? = some r → t'.rows[i]? = some r' → c ∈ t.cols →
        getCellByCol t'.cols r'.2 c = getCellByCol t.cols r.2 c) := by
  refine ⟨linkPatientIdsPure pids t, ?_, ?_, ?_, ?_, ?_⟩
  · simp [link_patient_ids, hp]
  · rw [linkPure_spec pids t hs]
  · rw [linkPure_spec pids t hs]
    simp [Table.keys]
  · intro i r hr
    rw [linkPure_spec pids t hs]
    refine ⟨Cell.str (lookupSampleId pids (patientIdOf t r)), ?_⟩
    rw [List.getElem?_map _ t.rows i, hr]
    rfl
  · intro i r r' c hr hr' hc
    rw [linkPure_spec pids t hs] at hr'
    simp only [List.getElem?_map _ t.rows i, hr, Option.map_some'] at hr'
    have hr2 : r' = (r.1, r.2 ++ [Cell.str (lookupSampleId pids (patientIdOf t r))]) :=
      ((Option.some.injEq _ _).mp hr').symm
    rw [linkPure_spec pids t hs, hr2]
    exact gcb_append_of_mem t.cols r.2 _ _ hc (hwf r (mem_of_getElem?_rows hr))

/-- C3, witness at a concrete ledger. -/
theorem link_inplace_append_only_witness :
    ∃ t', link_patient_ids pidsFix ledgerFix = (PyOutcome.returned (some t'), t') ∧
      t'.cols = ledgerFix.cols ++ ["Sample_ID"] ∧
      t'.keys = ledgerFix.keys ∧
      (∀ (i : Nat) (r : String × List Cell), ledgerFix.rows[i]? = some r →
        ∃ v, t'.rows[i]? = some (r.1, r.2 ++ [v])) ∧
      (∀ (i : Nat) (r r' : String × List Cell) (c : String),
        ledgerFix.rows[i]? = some r → t'.rows[i]? = some r' →
        c ∈ ledgerFix.cols →
        getCellByCol t'.cols r'.2 c = getCellByCol ledgerFix.cols r.2 c) :=
  link_inplace_append_only pidsFix ledgerFix (by decide) (by decide) (by decide)

/-- C4, counterexample: at a concrete ledger whose patient identifier is
in neither key space, the linking step raises nothing — it returns the
ledger with the NA sentinel in the Sample_ID column. -/
theorem link_unmapped_no_raise_cex :
    (link_patient_ids pidsFix ledgerUnmapped).1 ≠
      PyOutcome.raised "UnknownIdentifierError" ∧
    (link_patient_ids pidsFix ledgerUnmapped).1 =
      PyOutcome.returned (some
        { name := "somatic MAF", cols := ["Patient_Id", "Gene", "Sample_ID"]
          rows := [("0",
            [Cell.str "C3L-99999", Cell.str "TP53", Cell.str "NA"])] }) := by
  decide

/-- C4, amended: the ledger-linking step raises no error at all when the
ledger carries its Patient_Id column; a row whose patient identifier
is absent from the PatientSampleMap is recovered with the literal NA
sentinel in the appended Sample_ID column rather than propagating an
UnknownIdentifierError. -/
theorem link_unmapped_na_no_error (pids : List (String × String)) (t : Table)
    (hp : "Patient_Id" ∈ t.cols) (hs : "Sample_ID" ∉ t.cols) (hwf : WellFormed t) :
    (∀ exc, (link_patient_ids pids t).1 ≠ PyOutcome.raised exc) ∧
    ∃ t', (link_patient_ids pids t).1 = PyOutcome.returned (some t') ∧
      ∀ (i : Nat) (r : String × List Cell), t.rows[i]? = some r →
        dictLookup pids (patientIdOf t r) = none →
        ∃ r', t'.rows[i]? = some r' ∧
          getCellByCol t'.cols r'.2 "Sample_ID" = some (Cell.str "NA") := by
  constructor
  · intro exc
    simp [link_patient_ids, hp]
  · refine ⟨linkPatientIdsPure pids t, by simp [link_patient_ids, hp], ?_⟩
    intro i r hr hdict
    rw [linkPure_spec pids t hs]
    refine ⟨(r.1, r.2 ++ [Cell.str (lookupSampleId pids (patientIdOf t r))]), ?_, ?_⟩
    · rw [List.getElem?_map _ t.rows i, hr]
      rfl
    · rw [gcb_append_of_not_mem t.cols r.2 _ _ hs (hwf r (mem_of_getElem?_rows hr))]
      rw [show lookupSampleId pids (patientIdOf t r) = "NA" by
        simp [lookupSampleId, hdict]]
      exact gcb_singleton _ _

/-- C4, witness at a concrete ledger whose patient is unmapped. -/
theorem link_unmapped_na_no_error_witness :
    (∀ exc, (link_patient_ids pidsFix ledgerUnmapped).1 ≠ PyOutcome.raised exc) ∧
    ∃ t', (link_patient_ids pidsFix ledgerUnmapped).1 = PyOutcome.returned (some t') ∧
      ∀ (i : Nat) (r : String × List Cell), ledgerUnmapped.rows[i]? = some r →
        dictLookup pidsFix (patientIdOf ledgerUnmapped r) = none →
        ∃ r', t'.rows[i]? = some r' ∧
          getCellByCol t'.cols r'.2 "Sample_ID" = some (Cell.str "NA") :=
  link_unmapped_na_no_error pidsFix ledgerUnmapped (by decide) (by decide) (by decide)

/-- C5: the linking operation completes for every ledger that carries its
Patient_Id column — it returns a table and never fails on unmapped
identifiers — and every ledger row whose patient identifier is not a
key of the PatientSampleMap is assigned the literal NA string as its
sample identifier. -/
theorem link_na_sentinel_total (pids : List (String × String)) (t : Table)
    (hp : "Patient_Id" ∈ t.cols) (hs : "Sample_ID" ∉ t.cols) (hwf : WellFormed t) :
    (∃ t', link_patient_ids pids t = (PyOutcome.returned (some t'), t')) ∧
    (∀ (i : Nat) (r : String × List Cell), t.rows[i]? = some r →
      dictLookup pids (patientIdOf t r) = none →
      ∃ r', (linkPatientIdsPure pids t).rows[i]? = some r' ∧
        getCellByCol (linkPatientIdsPure pids t).cols r'.2 "Sample_ID" =
          some (Cell.str "NA")) := by
  constructor
  · exact ⟨linkPatientIdsPure pids t, by simp [link_patient_ids, hp]⟩
  · intro i r hr hdict
    rw [linkPure_spec pids t hs]
    refine ⟨(r.1, r.2 ++ [Cell.str (lookupSampleId pids (patientIdOf t r))]), ?_, ?_⟩
    · rw [List.getElem?_map _ t.rows i, hr]
      rfl
    · rw [gcb_append_of_not_mem t.cols r.2 _ _ hs (hwf r (mem_of_getElem?_rows hr))]
      rw [show lookupSampleId pids (patientIdOf t r) = "NA" by
        simp [lookupSampleId, hdict]]
      exact gcb_singleton _ _

/-- C5, witness at a concrete ledger whose patient is unmapped. -/
theorem link_na_sentinel_total_witness :
    (∃ t', link_patient_ids pidsFix ledgerUnmapped =
      (PyOutcome.returned (some t'), t')) ∧
    (∀ (i : Nat) (r : String × List Cell), ledgerUnmapped.rows[i]? = some r →
      dictLookup pidsFix (patientIdOf ledgerUnmapped r) = none →
      ∃ r', (linkPatientIdsPure pidsFix ledgerUnmapped).rows[i]? = some r' ∧
        getCellByCol (linkPatientIdsPure pidsFix ledgerUnmapped).cols r'.2
          "Sample_ID" = some (Cell.str "NA")) :=
  link_na_sentinel_total pidsFix ledgerUnmapped (by decide) (by decide) (by decide)

/-- C10: the table returned by link_patient_ids has exactly the rows of
the input ledger in order (same keys, same length), with exactly one
new Sample_ID column appended carrying one entry per row, and the
value of every pre-existing column unchanged. -/
theorem link_returns_appended_column (pids : List (String × String)) (t : Table)
    (hp : "Patient_Id" ∈ t.cols) (hs : "Sample_ID" ∉ t.cols) (hwf : WellFormed t) :
    ∃ t', (link_patient_ids pids t).1 = PyOutcome.returned (some t') ∧
      t'.name = t.name ∧
      t'.cols = t.cols ++ ["Sample_ID"] ∧
      t'.keys = t.keys ∧
      t'.rows.length = t.rows.length ∧
      (∀ (i : Nat) (r : String × List Cell), t.rows[i]? = some r →
        t'.rows[i]? =
          some (r.1, r.2 ++ [Cell.str (lookupSampleId pids (patientIdOf t r))])) ∧
      (∀ (i : Nat) (r r' : String × List Cell) (c : String),
        t.rows[i]? = some r → t'.rows[i]? = some r' → c ∈ t.cols →
        getCellByCol t'.cols r'.2 c = getCellByCol t.cols r.2 c) := by
  refine ⟨linkPatientIdsPure pids t, by simp [link_patient_ids, hp],
    ?_, ?_, ?_, ?_, ?_, ?_⟩
  · rw [linkPure_spec pids t hs]
  · rw [linkPure_spec pids t hs]
  · rw [linkPure_spec pids t hs]
    simp [Table.keys]
  · rw [linkPure_spec pids t hs]
    simp
  · intro i r hr
    rw [linkPure_spec pids t hs]
    rw [List.getElem?_map _ t.rows i, hr]
    rfl
  · intro i r r' c hr hr' hc
    rw [linkPure_spec pids t hs] at hr'
    simp only [List.getElem?_map _ t.rows i, hr, Option.map_some'] at hr'
    have hr2 : r' = (r.1, r.2 ++ [Cell.str (lookupSampleId pids (patientIdOf t r))]) :=
      ((Option.some.injEq _ _).mp hr').symm
    rw [linkPure_spec pids t hs, hr2]
    exact gcb_append_of_mem t.cols r.2 _ _ hc (hwf r (mem_of_getElem?_rows hr))

/-- C10, witness at a concrete one-row ledger. -/
theorem link_returns_appended_column_witness :
    ∃ t', (link_patient_ids pidsFix ledgerFix).1 = PyOutcome.returned (some t') ∧
      t'.name = ledgerFix.name ∧
      t'.cols = ledgerFix.cols ++ ["Sample_ID"] ∧
      t'.keys = ledgerFix.keys ∧
      t'.rows.length = ledgerFix.rows.length ∧
      (∀ (i : Nat) (r : String × List Cell), ledgerFix.rows[i]? = some r →
        t'.rows[i]? = some (r.1,
          r.2 ++ [Cell.str (lookupSampleId pidsFix (patientIdOf ledgerFix r))])) ∧
      (∀ (i : Nat) (r r' : String × List Cell) (c : String),
        ledgerFix.rows[i]? = some r → t'.rows[i]? = some r' → c ∈ ledgerFix.cols →
        getCellByCol t'.cols r'.2 c = getCellByCol ledgerFix.cols r.2 c) :=
  link_returns_appended_column pidsFix ledgerFix (by decide) (by decide) (by decide)

/-- An omics-shaped fixture carrying the miRNA name, which no merge
operation accepts. -/
def miRNATable : Table :=
  { name := "miRNA", cols := ["hsa-let-7a-2-3p"], rows := [("S001", [Cell.num 1])] }

/-- An omics-shaped fixture carrying the circular_RNA name, which no
merge operation accepts. -/
def circRNATable : Table :=
  { name := "circular_RNA", cols := ["circ_1"], rows := [("S001", [Cell.num 0])] }

/-- A well-formed proteomics fixture, accepted by the merge operations. -/
def proteomicsFix : Table :=
  { name := "proteomics", cols := ["A1BG", "TP53"]
    rows := [("S001", [Cell.num 3, Cell.num 5]),
             ("S002", [Cell.num 1, Cell.num 2]),
             ("S105", [Cell.num 4, Cell.num 6])] }

/-- C2, counterexample: at a concrete table of disallowed kind, each of
the three public merge operations returns without a value — the
outcome is a bare return, not a raised InvalidTableKindError. -/
theorem invalid_kind_not_raised_cex :
    compare_omics miRNATable miRNATable none none = PyOutcome.returned none ∧
    compare_omics miRNATable miRNATable none none ≠
      PyOutcome.raised "InvalidTableKindError" ∧
    append_metadata_to_omics miRNATable miRNATable none none =
      PyOutcome.returned none ∧
    append_metadata_to_omics miRNATable miRNATable none none ≠
      PyOutcome.raised "InvalidTableKindError" ∧
    append_mutations_to_omics [] miRNATable ["TP53"] none true =
      PyOutcome.returned none ∧
    append_mutations_to_omics [] miRNATable ["TP53"] none true ≠
      PyOutcome.raised "InvalidTableKindError" := by
  decide

/-- C2, amended: for every public merge operation and every input table
whose name is not in that operation's allow-list, the operation
constructs no output table — it prints a diagnostic and returns
without a value (a None result), rather than raising a structured
InvalidTableKindError; merges remain all-or-nothing. -/
theorem invalid_kind_returns_none :
    (∀ (df1 df2 : Table) (c1 c2 : Option (List String)),
      df1.name ∉ valid_omics_dfs ∨ df2.name ∉ valid_omics_dfs →
      compare_omics df1 df2 c1 c2 = PyOutcome.returned none) ∧
    (∀ (mdf odf : Table) (c1 c2 : Option (List String)),
      mdf.name ∉ valid_metadata_dfs ∨ odf.name ∉ valid_omics_dfs →
      append_metadata_to_omics mdf odf c1 c2 = PyOutcome.returned none) ∧
    (∀ (ledger : List MutationRec) (odf : Table) (gs : List String)
       (og : Option (List String)) (sl : Bool),
      odf.name ∉ valid_omics_dfs →
      append_mutations_to_omics ledger odf gs og sl = PyOutcome.returned none) := by
  refine ⟨?_, ?_, ?_⟩
  · intro df1 df2 c1 c2 h
    have : ¬(df1.name ∈ valid_omics_dfs ∧ df2.name ∈ valid_omics_dfs) := by
      rcases h with h | h <;> intro hc <;> [exact h hc.1; exact h hc.2]
    simp [compare_omics, this]
  · intro mdf odf c1 c2 h
    unfold append_metadata_to_omics
    by_cases hm : mdf.name ∈ valid_metadata_dfs
    · rcases h with h | h
      · exact absurd hm h
      · rw [if_pos hm, if_neg h]
    · rw [if_neg hm]
  · intro ledger odf gs og sl h
    simp [append_mutations_to_omics, h]

/-- C2, witness: the amended rejection behavior at concrete inputs. -/
theorem invalid_kind_returns_none_witness :
    compare_omics circRNATable proteomicsFix none none = PyOutcome.returned none ∧
    append_metadata_to_omics circRNATable proteomicsFix none none =
      PyOutcome.returned none ∧
    append_mutations_to_omics [] circRNATable ["TP53"] none true =
      PyOutcome.returned none :=
  ⟨invalid_kind_returns_none.1 circRNATable proteomicsFix none none
      (Or.inl (by decide)),
   invalid_kind_returns_none.2.1 circRNATable proteomicsFix none none
      (Or.inl (by decide)),
   invalid_kind_returns_none.2.2 [] circRNATable ["TP53"] none true (by decide)⟩

/-- C9: kind validation dispatches solely on the name attribute — an
operation produces a table exactly when the names of its arguments are
in the allow-lists, whatever the table contents, and it returns no
table exactly otherwise; the circular_RNA and miRNA names belong to no
allow-list, so tables named after them are always rejected. -/
theorem kind_gate_name_dispatch :
    (∀ (t1 t2 : Table) (c1 c2 : Option (List String)),
      ((∃ out, compare_omics t1 t2 c1 c2 = PyOutcome.returned (some out)) ↔
        t1.name ∈ valid_omics_dfs ∧ t2.name ∈ valid_omics_dfs) ∧
      (compare_omics t1 t2 c1 c2 = PyOutcome.returned none ↔
        ¬(t1.name ∈ valid_omics_dfs ∧ t2.name ∈ valid_omics_dfs))) ∧
    (∀ (mdf odf : Table) (c1 c2 : Option (List String)),
      ((∃ out, append_metadata_to_omics mdf odf c1 c2 =
          PyOutcome.returned (some out)) ↔
        mdf.name ∈ valid_metadata_dfs ∧ odf.name ∈ valid_omics_dfs) ∧
      (append_metadata_to_omics mdf odf c1 c2 = PyOutcome.returned none ↔
        ¬(mdf.name ∈ valid_metadata_dfs ∧ odf.name ∈ valid_omics_dfs))) ∧
    (∀ (ledger : List MutationRec) (odf : Table) (gs : List String)
       (og : Option (List String)) (sl : Bool),
      ((∃ out, append_mutations_to_omics ledger odf gs og sl =
          PyOutcome.returned (some out)) ↔ odf.name ∈ valid_omics_dfs) ∧
      (append_mutations_to_omics ledger odf gs og sl = PyOutcome.returned none ↔
        odf.name ∉ valid_omics_dfs)) ∧
    "circular_RNA" ∉ valid_omics_dfs ∧ "miRNA" ∉ valid_omics_dfs ∧
    "circular_RNA" ∉ valid_metadata_dfs ∧ "miRNA" ∉ valid_metadata_dfs := by
  refine ⟨?_, ?_, ?_, by decide, by decide, by decide, by decide⟩
  · intro t1 t2 c1 c2
    by_cases h : t1.name ∈ valid_omics_dfs ∧ t2.name ∈ valid_omics_dfs
    · constructor
      · simp [compare_omics, h]
      · simp [compare_omics, h]
    · constructor
      · simp [compare_omics, h]
      · simp [compare_omics, h]
  · intro mdf odf c1 c2
    unfold append_metadata_to_omics
    by_cases hm : mdf.name ∈ valid_metadata_dfs
    · by_cases ho : odf.name ∈ valid_omics_dfs
      · simp [hm, ho]
      · simp [hm, ho]
    · simp [hm]
  · intro ledger odf gs og sl
    by_cases ho : odf.name ∈ valid_omics_dfs
    · simp [append_mutations_to_omics, ho]
    · simp [append_mutations_to_omics, ho]

/-- C9, witness: the name-dispatch gate at concrete inputs — the
miRNA-named table is rejected and the proteomics-named table accepted
by the mutation-append operation. -/
theorem kind_gate_name_dispatch_witness :
    append_mutations_to_omics [] miRNATable ["TP53"] none true =
      PyOutcome.returned none ∧
    ∃ out, append_mutations_to_omics [] proteomicsFix ["TP53"] none true =
      PyOutcome.returned (some out) :=
  ⟨(kind_gate_name_dispatch.2.2.1 [] miRNATable ["TP53"] none true).2.mpr (by decide),
   (kind_gate_name_dispatch.2.2.1 [] proteomicsFix ["TP53"] none true).1.mpr
      (by decide)⟩

theorem dictLookup_map_eq_some {g : String × List Cell → String}
    {h : String × List Cell → String} :
    ∀ (l : List (String × List Cell)) (p v : String),
      dictLookup (l.map (fun r => (g r, h r))) p = some v →
      ∃ r ∈ l, g r = p ∧ h r = v
  | [], _, _, hl => by simp [dictLookup] at hl
  | r :: rest, p, v, hl => by
    simp only [List.map_cons, dictLookup] at hl
    rcases hrest : dictLookup (rest.map (fun r => (g r, h r))) p with _ | w
    · rw [hrest] at hl
      by_cases hg : g r = p
      · rw [if_pos hg] at hl
        exact ⟨r, List.mem_cons_self r rest, hg, (Option.some.injEq _ _).mp hl⟩
      · rw [if_neg hg] at hl
        exact absurd hl (by simp)
    · rw [hrest] at hl
      obtain ⟨r', hr', hg', hh'⟩ :=
        dictLookup_map_eq_some rest p v (hrest.trans (congrArg some
          ((Option.some.injEq _ _).mp hl)))
      exact ⟨r', List.mem_cons_of_mem _ hr', hg', hh'⟩

theorem dictLookup_map_isSome {g : String × List Cell → String}
    {h : String × List Cell → String} :
    ∀ (l : List (String × List Cell)) (r : String × List Cell), r ∈ l →
      (dictLookup (l.map (fun r => (g r, h r))) (g r)).isSome
  | [], _, hr => by simp at hr
  | x :: rest, r, hr => by
    simp only [List.map_cons, dictLookup]
    rcases hrest : dictLookup (rest.map (fun r => (g r, h r))) (g r) with _ | w
    · rcases List.mem_cons.mp hr with he | hm
      · rw [he, if_pos rfl]
        rfl
      · have := @dictLookup_map_isSome g h rest r hm
        rw [hrest] at this
        simp at this
    · rfl

/-- C7: the PatientSampleMap is built from exactly the first 103 rows of
the clinical table — truncating the table to 103 rows leaves the map
unchanged, every binding comes from one of those rows (mapping that
row's Patient_ID value to its index label), and every one of those
rows contributes its Patient_ID as a key — while the tumor/normal
status rule classifies a sample key as Tumor exactly when it is
lexicographically at or below S104. -/
theorem patient_map_first_103_and_status :
    (∀ clinical : Table, create_patient_ids clinical =
      create_patient_ids
        { name := clinical.name, cols := clinical.cols
          rows := clinical.rows.take 103 }) ∧
    (∀ (clinical : Table) (p sid : String),
      dictLookup (create_patient_ids clinical) p = some sid →
      ∃ (i : Nat) (r : String × List Cell), i < 103 ∧ clinical.rows[i]? = some r ∧
        r.1 = sid ∧ cellStr (getCellByCol clinical.cols r.2 "Patient_ID") = p) ∧
    (∀ (clinical : Table) (i : Nat) (r : String × List Cell),
      i < 103 → clinical.rows[i]? = some r →
      (dictLookup (create_patient_ids clinical)
        (cellStr (getCellByCol clinical.cols r.2 "Patient_ID"))).isSome) ∧
    (∀ k : String, sample_status k = "Tumor" ↔ strLeB k "S104" = true) := by
  refine ⟨?_, ?_, ?_, ?_⟩
  · intro clinical
    simp [create_patient_ids, List.take_take]
  · intro clinical p sid hl
    obtain ⟨r, hr, hg, hh⟩ := dictLookup_map_eq_some (clinical.rows.take 103) p sid hl
    obtain ⟨i, hi⟩ := List.mem_iff_getElem?.mp hr
    have hlt : i < (clinical.rows.take 103).length := (List.getElem?_eq_some.mp hi).1
    have hn : i < 103 := lt_of_lt_of_le hlt (by simp [List.length_take])
    exact ⟨i, r, hn, by rwa [List.getElem?_take_of_lt hn] at hi, hh, hg⟩
  · intro clinical i r hn hi
    have hr : r ∈ clinical.rows.take 103 := by
      have : (clinical.rows.take 103)[i]? = some r := by
        rw [List.getElem?_take_of_lt hn]
        exact hi
      exact mem_of_getElem?_rows this
    exact dictLookup_map_isSome (clinical.rows.take 103) r hr
  · intro k
    unfold sample_status
    by_cases h : strLeB k "S104" = true
    · simp [h]
    · simp only [Bool.not_eq_true] at h
      simp [h]

/-- A clinical fixture with one kept case and one excluded case. -/
def clinicalFix : Table :=
  { name := "clinical", cols := ["Patient_ID", "Case_excluded"]
    rows := [("S001", [Cell.str "C3L-00006", Cell.str "No"]),
             ("S002", [Cell.str "C3L-00008", Cell.str "Yes"])] }

/-- C7, witness: the map of the concrete clinical fixture binds the first
patient to its row label, the fixture's rows all contribute keys, and
the status rule at concrete keys. -/
theorem patient_map_first_103_and_status_witness :
    (∃ (i : Nat) (r : String × List Cell), i < 103 ∧ clinicalFix.rows[i]? = some r ∧
      r.1 = "S001" ∧ cellStr (getCellByCol clinicalFix.cols r.2 "Patient_ID") =
        "C3L-00006") ∧
    (dictLookup (create_patient_ids clinicalFix)
      (cellStr (getCellByCol clinicalFix.cols
        [Cell.str "C3L-00008", Cell.str "Yes"] "Patient_ID"))).isSome ∧
    (sample_status "S001" = "Tumor" ↔ strLeB "S001" "S104" = true) :=
  ⟨patient_map_first_103_and_status.2.1 clinicalFix "C3L-00006" "S001" (by decide),
   patient_map_first_103_and_status.2.2.1 clinicalFix 1
     ("S002", [Cell.str "C3L-00008", Cell.str "Yes"]) (by decide) (by decide),
   patient_map_first_103_and_status.2.2.2 "S001"⟩

/-- C8: the filtered variant returned by a getter with unfiltered set to
false contains no row whose key is an excluded clinical case (a row
with Case_excluded equal to Yes), its row keys are a subset of the
unfiltered variant's keys, and calling the getter with unfiltered set
to true returns the unfiltered variant unchanged. -/
theorem filtered_getter_invariants (cfd t_u : Table) :
    (∀ k : String, k ∈ (get_loaded_table t_u (casesToDrop cfd) false).keys →
      ∀ r : String × List Cell, r ∈ cfd.rows → r.1 = k →
        getCellByCol cfd.cols r.2 "Case_excluded" ≠ some (Cell.str "Yes")) ∧
    (∀ k : String, k ∈ (get_loaded_table t_u (casesToDrop cfd) false).keys →
      k ∈ (get_loaded_table t_u (casesToDrop cfd) true).keys) ∧
    get_loaded_table t_u (casesToDrop cfd) true = t_u := by
  refine ⟨?_, ?_, rfl⟩
  · intro k hk r hr hrk hcell
    simp only [get_loaded_table, Bool.false_eq_true, if_false, Table.keys, dropCases,
      List.mem_map] at hk
    obtain ⟨row, hrow, hfst⟩ := hk
    have hmem := (List.mem_filter.mp hrow).2
    simp only [Bool.not_eq_eq_eq_not, Bool.not_true, decide_eq_false_iff_not] at hmem
    apply hmem
    rw [hfst, ← hrk]
    unfold casesToDrop
    exact List.mem_map.mpr ⟨r, List.mem_filter.mpr ⟨hr, by simp [hcell]⟩, rfl⟩
  · intro k hk
    simp only [get_loaded_table, Bool.false_eq_true, if_false, if_true, Table.keys,
      dropCases, List.mem_map] at hk ⊢
    obtain ⟨row, hrow, hfst⟩ := hk
    exact ⟨row, (List.mem_filter.mp hrow).1, hfst⟩

/-- C8, witness: at the concrete clinical fixture, the kept row's key
survives the filter, its clinical row is not excluded, and the
unfiltered getter returns the fixture unchanged. -/
theorem filtered_getter_invariants_witness :
    getCellByCol clinicalFix.cols [Cell.str "C3L-00006", Cell.str "No"]
      "Case_excluded" ≠ some (Cell.str "Yes") ∧
    ("S001" ∈ (get_loaded_table clinicalFix (casesToDrop clinicalFix) true).keys) ∧
    get_loaded_table clinicalFix (casesToDrop clinicalFix) true = clinicalFix :=
  ⟨(filtered_getter_invariants clinicalFix clinicalFix).1 "S001" (by decide)
      ("S001", [Cell.str "C3L-00006", Cell.str "No"]) (by decide) rfl,
   (filtered_getter_invariants clinicalFix clinicalFix).2.1 "S001" (by decide),
   (filtered_getter_invariants clinicalFix clinicalFix).2.2⟩

theorem charListLt_irrefl : ∀ l : List Char, charListLt l l = false
  | [] => rfl
  | x :: xs => by
    simp only [charListLt, lt_irrefl, if_false]
    exact charListLt_irrefl xs

theorem recBefore_same {a b : MutationRec} (h : a.sample = b.sample) :
    recBefore a b =
      decide (mutation_hierarchy b.mutation < mutation_hierarchy a.mutation) := by
  unfold recBefore
  rw [h]
  simp [strLtB, charListLt_irrefl]

theorem pickEarlier_isSome (x : MutationRec) (o : Option MutationRec) :
    ∃ r, pickEarlier x o = some r := by
  cases o with
  | none => exact ⟨x, rfl⟩
  | some m =>
    by_cases hb : recBefore m x
    · exact ⟨m, by simp [pickEarlier, hb]⟩
    · exact ⟨x, by simp [pickEarlier, hb]⟩

theorem resolve_scalar_eq_firstTop :
    ∀ l : List MutationRec, resolve_scalar l = firstTopSeverity l
  | [] => rfl
  | x :: xs => by
    have ih := resolve_scalar_eq_firstTop xs
    simp only [resolve_scalar, sortRecs, firstTopSeverity]
    rw [← ih]
    simp only [resolve_scalar]
    rcases hs : sortRecs xs with _ | ⟨y, ys⟩
    · simp [insertRec, pickEarlier]
    · by_cases hb : recBefore y x
      · simp [insertRec, hb, pickEarlier]
      · simp [insertRec, hb, pickEarlier]

theorem firstTop_mem :
    ∀ (l : List MutationRec) (r : MutationRec), firstTopSeverity l = some r → r ∈ l
  | [], _, h => by simp [firstTopSeverity] at h
  | x :: xs, r, h => by
    simp only [firstTopSeverity] at h
    rcases hm : firstTopSeverity xs with _ | m
    · rw [hm] at h
      simp only [pickEarlier] at h
      exact ((Option.some.injEq _ _).mp h) ▸ List.mem_cons_self x xs
    · rw [hm] at h
      simp only [pickEarlier] at h
      by_cases hb : recBefore m x
      · rw [if_pos hb] at h
        exact List.mem_cons_of_mem _
          (firstTop_mem xs r (hm.trans (congrArg some ((Option.some.injEq _ _).mp h))))
      · rw [if_neg hb] at h
        exact ((Option.some.injEq _ _).mp h) ▸ List.mem_cons_self x xs

theorem firstTop_max_same_sample :
    ∀ (l : List MutationRec) (s : String) (r : MutationRec),
      (∀ y ∈ l, y.sample = s) → firstTopSeverity l = some r →
      ∀ y ∈ l, mutation_hierarchy y.mutation ≤ mutation_hierarchy r.mutation
  | [], _, _, _, _, y, hy => by simp at hy
  | x :: xs, s, r, hsam, hr, y, hy => by
    simp only [firstTopSeverity] at hr
    rcases hm : firstTopSeverity xs with _ | m
    · rw [hm] at hr
      simp only [pickEarlier] at hr
      have hxr : x = r := (Option.some.injEq _ _).mp hr
      have hxs : xs = [] := by
        cases xs with
        | nil => rfl
        | cons a tl =>
          obtain ⟨w, hw⟩ := pickEarlier_isSome a (firstTopSeverity tl)
          rw [show firstTopSeverity (a :: tl) = pickEarlier a (firstTopSeverity tl)
            from rfl, hw] at hm
          cases hm
      subst hxs
      rcases List.mem_singleton.mp hy with rfl
      exact hxr ▸ le_refl _
    · rw [hm] at hr
      simp only [pickEarlier] at hr
      have hmx : m.sample = x.sample := by
        rw [hsam m (List.mem_cons_of_mem _ (firstTop_mem xs m hm)),
          hsam x (List.mem_cons_self x xs)]
      have hmax := firstTop_max_same_sample xs s m
        (fun z hz => hsam z (List.mem_cons_of_mem _ hz)) hm
      by_cases hb : recBefore m x
      · rw [if_pos hb] at hr
        have hmr : m = r := (Option.some.injEq _ _).mp hr
        have hlt : mutation_hierarchy x.mutation < mutation_hierarchy m.mutation := by
          rw [recBefore_same hmx] at hb
          exact of_decide_eq_true hb
        rcases List.mem_cons.mp hy with rfl | hyx
        · exact hmr ▸ le_of_lt hlt
        · exact hmr ▸ hmax y hyx
      · rw [if_neg hb] at hr
        have hxr : x = r := (Option.some.injEq _ _).mp hr
        have hle : mutation_hierarchy m.mutation ≤ mutation_hierarchy x.mutation := by
          rw [recBefore_same hmx] at hb
          exact le_of_not_lt (fun hlt => hb (decide_eq_true hlt))
        rcases List.mem_cons.mp hy with rfl | hyx
        · exact hxr ▸ le_refl _
        · exact hxr ▸ le_trans (hmax y hyx) hle

theorem firstTop_isSome (l : List MutationRec) (hne : l ≠ []) :
    ∃ r, firstTopSeverity l = some r := by
  cases l with
  | nil => exact absurd rfl hne
  | cons x xs => exact pickEarlier_isSome x (firstTopSeverity xs)

/-- The first tied record of the scalar-resolution counterexample: it
precedes in ledger order but its Location is lexicographically
second. -/
def recTieFirst : MutationRec :=
  { sample := "S001", gene := "TP53"
    mutation := "Missense_Mutation", location := "p.B101C" }

/-- The second tied record of the scalar-resolution counterexample: its
Location is lexicographically first. -/
def recTieSecond : MutationRec :=
  { sample := "S001", gene := "TP53"
    mutation := "Missense_Mutation", location := "p.A100B" }

/-- C6, counterexample: a concrete two-record multiset for one
(sample, gene) pair whose records tie at the top severity (they carry
the same mutation type, so they tie under any severity order); the
scalar resolver returns the record that comes first in ledger order,
whose Location is lexicographically second — not the record with the
lexicographically-first Location. -/
theorem scalar_tiebreak_not_lexicographic_cex :
    mutation_hierarchy recTieFirst.mutation =
      mutation_hierarchy recTieSecond.mutation ∧
    strLtB recTieSecond.location recTieFirst.location = true ∧
    resolve_scalar [recTieFirst, recTieSecond] = some recTieFirst ∧
    recTieFirst.location ≠ recTieSecond.location := by
  decide

/-- C6, amended: in scalar-resolution mode the resolver performs a stable
sort by descending severity and takes the first row, so for records of
one sample it returns the earliest record in ledger order among those
attaining the maximal severity of the hierarchy (not the record with
the lexicographically-first Location); being a pure function of the
record sequence, repeated calls return that same record. -/
theorem scalar_resolution_first_top_severity (l : List MutationRec) (s : String)
    (hsam : ∀ r ∈ l, r.sample = s) (hne : l ≠ []) :
    resolve_scalar l = firstTopSeverity l ∧
    ∃ r, resolve_scalar l = some r ∧ r ∈ l ∧
      ∀ y ∈ l, mutation_hierarchy y.mutation ≤ mutation_hierarchy r.mutation := by
  obtain ⟨r, hr⟩ := firstTop_isSome l hne
  exact ⟨resolve_scalar_eq_firstTop l,
    r, (resolve_scalar_eq_firstTop l).trans hr, firstTop_mem l r hr,
    firstTop_max_same_sample l s r hsam hr⟩

/-- C6, witness: the amended resolution at a concrete two-record list
with distinct severities. -/
theorem scalar_resolution_first_top_severity_witness :
    resolve_scalar [recTieFirst, recTieSecond] =
      firstTopSeverity [recTieFirst, recTieSecond] ∧
    ∃ r, resolve_scalar [recTieFirst, recTieSecond] = some r ∧
      r ∈ [recTieFirst, recTieSecond] ∧
      ∀ y ∈ [recTieFirst, recTieSecond],
        mutation_hierarchy y.mutation ≤ mutation_hierarchy r.mutation :=
  scalar_resolution_first_top_severity [recTieFirst, recTieSecond] "S001"
    (by decide) (by decide)

theorem wildtypeFor_eq (s : String) :
    wildtypeFor s =
      if strLeB s "S104" then "Wildtype_Tumor" else "Wildtype_Normal" := by
  unfold wildtypeFor sample_status
  by_cases h : strLeB s "S104"
  · simp [h]
  · simp [h]

/-- C1: in the output of the mutation-annotation operation, for every
sample row and queried gene with zero ledger records for that
(sample, gene) pair, the imputed cell is exactly the single-element
list holding Wildtype_Tumor when the sample key is lexicographically
at or below S104 (the code's Tumor rule) and Wildtype_Normal
otherwise; no other value appears for a record-less pair. -/
theorem append_mutations_wildtype_imputation
    (ledger : List MutationRec) (omics : Table) (genes : List String)
    (og : Option (List String)) (sl : Bool) (out : Table) (s g : String)
    (hout : append_mutations_to_omics ledger omics genes og sl =
      PyOutcome.returned (some out))
    (hwf : WellFormed (selectCols omics og))
    (hs : s ∈ out.keys) (hg : g ∈ genes)
    (hnc : (g ++ "_Mutation") ∉ (selectCols omics og).cols)
    (hzero : recordsFor ledger s g = []) :
    out.cellAt s (g ++ "_Mutation") =
      some (Cell.strList
        [if strLeB s "S104" then "Wildtype_Tumor" else "Wildtype_Normal"]) := by
  have hout' : out = utilAppendMutationsToOmics ledger omics genes og sl := by
    by_cases hv : omics.name ∈ valid_omics_dfs
    · simp [append_mutations_to_omics, hv] at hout
      exact hout.symm
    · simp [append_mutations_to_omics, hv] at hout
  subst hout'
  have hkeys : s ∈ (selectCols omics og).rows.map Prod.fst := by
    simpa [utilAppendMutationsToOmics, Table.keys, List.map_map,
      Function.comp] using hs
  obtain ⟨r0, hr0, hr01⟩ := List.mem_map.mp hkeys
  have hfind : ((selectCols omics og).rows.find? (fun r => r.1 == s)).isSome := by
    rw [List.find?_isSome]
    exact ⟨r0, hr0, by simp [hr01]⟩
  obtain ⟨rb, hrb⟩ := Option.isSome_iff_exists.mp hfind
  have hrbmem : rb ∈ (selectCols omics og).rows := List.mem_of_find?_eq_some hrb
  have hrb1 : rb.1 = s := by
    have := List.find?_some hrb
    exact beq_iff_eq.mp this
  have hrows : (utilAppendMutationsToOmics ledger omics genes og sl).rows =
      (selectCols omics og).rows.map (fun r => (r.1,
        r.2 ++ genes.map (fun g' => Cell.strList (mutationCellFor ledger r.1 g'))
            ++ (if sl then
                  genes.map (fun g' => Cell.strList (locationCellFor ledger r.1 g'))
                else []))) := rfl
  have hcols : (utilAppendMutationsToOmics ledger omics genes og sl).cols =
      (selectCols omics og).cols ++ genes.map (fun g' => g' ++ "_Mutation")
        ++ (if sl then genes.map (fun g' => g' ++ "_Location") else []) := rfl
  unfold Table.cellAt
  rw [hrows, hcols,
    find?_map_key (selectCols omics og).rows
      (fun r => r.2 ++ genes.map (fun g' => Cell.strList (mutationCellFor ledger r.1 g'))
        ++ (if sl then
              genes.map (fun g' => Cell.strList (locationCellFor ledger r.1 g'))
            else [])) s,
    hrb]
  simp only [Option.map_some']
  rw [List.append_assoc, List.append_assoc,
    gcb_append_of_not_mem (selectCols omics og).cols rb.2 _ _ hnc
      (hwf rb hrbmem),
    gcb_map_append (fun a b h => String.append_right_cancel' h) genes _ _ g hg,
    hrb1]
  rw [show mutationCellFor ledger s g = [wildtypeFor s] by
    simp [mutationCellFor, hzero]]
  rw [wildtypeFor_eq]

/-- A one-record mutation ledger fixture: one missense record for TP53 in
sample S001, no records for any other sample. -/
def ledgerC1 : List MutationRec :=
  [{ sample := "S001", gene := "TP53"
     mutation := "Missense_Mutation", location := "p.R175H" }]

/-- C1, witness: annotating the concrete proteomics fixture against the
one-record ledger imputes the wildtype value for the record-less
normal sample S105. -/
theorem append_mutations_wildtype_imputation_witness :
    (utilAppendMutationsToOmics ledgerC1 proteomicsFix ["TP53"] none true).cellAt
      "S105" ("TP53" ++ "_Mutation") =
      some (Cell.strList
        [if strLeB "S105" "S104" then "Wildtype_Tumor" else "Wildtype_Normal"]) :=
  append_mutations_wildtype_imputation ledgerC1 proteomicsFix ["TP53"] none true
    (utilAppendMutationsToOmics ledgerC1 proteomicsFix ["TP53"] none true)
    "S105" "TP53" (by decide) (by decide) (by decide) (by decide) (by decide)
    (by decide)
